import Mathlib

/-!
Verification of the WBChat real-time chat core (`chat/models.py`,
`chat/consumers.py`) against its natural-language specification.

The Python code is shallowly embedded: Django model rows become Lean
structures, tables become lists of rows, and each model method or consumer
database operation becomes a pure Lean function from the old state (plus the
current time, standing for `timezone.now()`) to the new state.  The
`ChatConsumer` handlers are embedded as functions producing an ordered list
of `Step`s (database writes, group broadcasts, local replies), preserving the
order in which the Python code performs its effects.
-/

/-- Timestamps (`timezone.now()` values) are abstract natural numbers. -/
abbrev Time : Type := Nat

/-- Delivery status of a message for one recipient
(`MessageStatus.STATUS_CHOICES`). -/
inductive DStatus
  | sent
  | delivered
  | read
deriving DecidableEq, Repr

/-- Numeric rank of a delivery status along the `sent → delivered → read`
chain; used to state monotonicity. -/
def DStatus.rank : DStatus → Nat
  | .sent => 0
  | .delivered => 1
  | .read => 2

/-- One row of the `Message` table (the fields the real-time core touches). -/
structure MessageRec where
  id : Nat
  conversation_id : Nat
  author_id : Option Nat
  content : String
  type : String
  created_at : Time
  is_edited : Bool
  edited_at : Option Time
  is_deleted : Bool
  deleted_at : Option Time
  reply_to_id : Option Nat
deriving DecidableEq, Repr

/-- One row of the `MessageStatus` table. -/
structure MessageStatusRec where
  message_id : Nat
  user_id : Nat
  status : DStatus
  sent_at : Time
  delivered_at : Option Time
  read_at : Option Time
deriving DecidableEq, Repr

/-- One row of the `UserConversation` through table (a membership). -/
structure UserConversationRec where
  user_id : Nat
  conversation_id : Nat
  last_read_at : Option Time
  left_at : Option Time
deriving DecidableEq, Repr

/-- One row of the `TypingIndicator` table. -/
structure TypingIndicatorRec where
  conversation_id : Nat
  user_id : Nat
  started_at : Time
deriving DecidableEq, Repr

/-- One row of the `Reaction` table. -/
structure ReactionRec where
  message_id : Nat
  user_id : Nat
  emoji : String
deriving DecidableEq, Repr

/-- One row of the `OnlineStatus` table (one per user, the presence record). -/
structure OnlineStatusRec where
  user_id : Nat
  is_online : Bool
  connection_count : Nat
  last_seen_at : Option Time
  last_activity_at : Time
  current_conversation : Option Nat
deriving DecidableEq, Repr

/-- A user row: the core only consumes id and display name. -/
structure UserRec where
  id : Nat
  username : String
deriving DecidableEq, Repr

namespace Message

/-- Embeds `Message.soft_delete` (models.py): sets `is_deleted = True` and
`deleted_at = timezone.now()` unconditionally, even on an already-deleted
row. -/
def soft_delete (m : MessageRec) (now : Time) : MessageRec :=
  { m with is_deleted := true, deleted_at := some now }

/-- Embeds `Message.edit` (models.py): overwrites `content`, sets
`is_edited = True` and `edited_at = timezone.now()`. -/
def edit (m : MessageRec) (new_content : String) (now : Time) : MessageRec :=
  { m with content := new_content, is_edited := true, edited_at := some now }

end Message

namespace MessageStatus

/-- Embeds `MessageStatus.mark_delivered` (models.py): transitions the row to
`delivered` only when its current status is `sent`; otherwise the row is
left untouched. -/
def mark_delivered (s : MessageStatusRec) (now : Time) : MessageStatusRec :=
  if s.status = .sent then
    { s with status := .delivered, delivered_at := some now }
  else
    s

/-- Embeds `MessageStatus.mark_read` (models.py): transitions the row to `read`
(setting `read_at = now`) whenever its current status is not already
`read`; an already-`read` row is left untouched. -/
def mark_read (s : MessageStatusRec) (now : Time) : MessageStatusRec :=
  if s.status ≠ .read then
    { s with status := .read, read_at := some now }
  else
    s

end MessageStatus

namespace TypingIndicator

/-- Length of a day in seconds: `datetime.timedelta` normalises its
`seconds` attribute into `[0, 86400)`. -/
def secondsPerDay : Nat := 86400

/-- The `seconds` attribute of the Python `timedelta` holding `elapsed`
whole seconds (elapsed ≥ 0): the seconds *component* after normalisation
into days/seconds, i.e. `elapsed % 86400` — not the total. -/
def timedeltaSecondsAttr (elapsed : Nat) : Nat :=
  elapsed % secondsPerDay

/-- Embeds `TypingIndicator.is_expired` (models.py): evaluates
`(timezone.now() - self.started_at).seconds > timeout_seconds`, where
`elapsed` abbreviates the nonnegative whole-second difference
`now - started_at`.  Note the code reads the timedelta's `seconds`
component, not its total duration. -/
def is_expired (elapsed : Nat) (timeout_seconds : Nat) : Bool :=
  timedeltaSecondsAttr elapsed > timeout_seconds

/-- The default timeout argument in the source (`timeout_seconds=5`). -/
def default_timeout : Nat := 5

end TypingIndicator

namespace OnlineStatus

/-- Embeds `OnlineStatus.go_online` (models.py): sets `is_online = True`,
increments `connection_count`, refreshes `last_activity_at` (auto_now on
save). -/
def go_online (s : OnlineStatusRec) (now : Time) : OnlineStatusRec :=
  { s with is_online := true,
           connection_count := s.connection_count + 1,
           last_activity_at := now }

/-- Embeds `OnlineStatus.go_offline` (models.py): decrements `connection_count`
with a floor of zero (`max(0, count - 1)`, which is Nat subtraction); if the
new count is zero, sets `is_online = False` and `last_seen_at = now`;
always refreshes `last_activity_at` (auto_now on save). -/
def go_offline (s : OnlineStatusRec) (now : Time) : OnlineStatusRec :=
  let c := s.connection_count - 1
  if c = 0 then
    { s with connection_count := c, is_online := false,
             last_seen_at := some now, last_activity_at := now }
  else
    { s with connection_count := c, last_activity_at := now }

/-- A presence call as issued by connect/disconnect, tagged with the time at
which it runs. -/
inductive Call
  | goOnline (now : Time)
  | goOffline (now : Time)
deriving DecidableEq, Repr

/-- Apply one presence call to the record. -/
def applyCall (s : OnlineStatusRec) : Call → OnlineStatusRec
  | .goOnline now => go_online s now
  | .goOffline now => go_offline s now

/-- Apply a sequence of presence calls in order. -/
def applyCalls (s : OnlineStatusRec) : List Call → OnlineStatusRec
  | [] => s
  | c :: cs => applyCalls (applyCall s c) cs

/-- Number of `goOnline` calls in a sequence. -/
def onlineCount : List Call → Nat
  | [] => 0
  | .goOnline _ :: cs => onlineCount cs + 1
  | .goOffline _ :: cs => onlineCount cs

/-- Number of `goOffline` calls in a sequence. -/
def offlineCount : List Call → Nat
  | [] => 0
  | .goOnline _ :: cs => offlineCount cs
  | .goOffline _ :: cs => offlineCount cs + 1

/-- The fresh presence record `get_or_create` builds for a user with no
row: `connection_count = 0`, `is_online = False` (model field defaults). -/
def initial (uid : Nat) (now : Time) : OnlineStatusRec :=
  { user_id := uid, is_online := false, connection_count := 0,
    last_seen_at := none, last_activity_at := now,
    current_conversation := none }

end OnlineStatus

/-- Database state visible to one `ChatConsumer`: the tables the consumer
reads and writes.  `Conversation` rows themselves are not modelled: the
consumer only touches their `updated_at`, which no claim mentions. -/
structure World where
  users : List UserRec
  messages : List MessageRec
  statuses : List MessageStatusRec
  memberships : List UserConversationRec
  typing : List TypingIndicatorRec
  reactions : List ReactionRec
  next_message_id : Nat
deriving DecidableEq, Repr

/-- One live WebSocket session: `self.user` (id and username) and
`self.conversation_id`. -/
structure Session where
  user_id : Nat
  username : String
  conversation_id : Nat
deriving DecidableEq, Repr

/-- The serialized message dictionary built by
`ChatConsumer.message_to_dict`. -/
structure MsgDict where
  id : Nat
  author_id : Option Nat
  author_username : String
  content : String
  type : String
  created_at : Time
  is_edited : Bool
  edited_at : Option Time
  reply_to_id : Option Nat
deriving DecidableEq, Repr

/-- An event published to the conversation's group via
`channel_layer.group_send`; the constructor is the event's `type` field,
which selects the consumer handler of the same name. -/
inductive GroupEvent
  | chatMessage (message : MsgDict)
  | typingIndicatorEv (user_id : Nat) (username : String) (is_typing : Bool)
  | readReceiptEv (user_id : Nat) (message_ids : List Nat)
  | messageEdited (message : MsgDict)
  | messageDeleted (message_id : Option Nat) (user_id : Nat)
  | messageReaction (message_id : Option Nat) (user_id : Nat)
      (emoji : Option String) (action : String)
  | userJoin (user_id : Nat) (username : String)
  | userLeave (user_id : Nat) (username : String)
deriving DecidableEq, Repr

/-- A frame written to one WebSocket by `self.send`, one constructor per
distinct payload shape the consumer emits. -/
inductive OutFrame
  | errorFrame (error : String)
  | chatMessageFrame (message : MsgDict)
  | typingFrame (user_id : Nat) (username : String) (is_typing : Bool)
  | readReceiptFrame (user_id : Nat) (message_ids : List Nat)
  | messageEditedFrame (message : MsgDict)
  | messageDeletedFrame (message_id : Option Nat) (user_id : Nat)
  | reactionFrame (message_id : Option Nat) (user_id : Nat)
      (emoji : Option String) (action : String)
  | userJoinFrame (user_id : Nat) (username : String)
  | userLeaveFrame (user_id : Nat) (username : String)
deriving DecidableEq, Repr

/-- The parsed inbound command envelope: every field a handler may read via
`data.get(...)`, each `none` when the key is absent. -/
structure CommandData where
  message : Option String
  reply_to : Option Nat
  is_typing : Option Bool
  message_ids : Option (List Nat)
  message_id : Option Nat
  content : Option String
  emoji : Option String
  action : Option String
deriving DecidableEq, Repr

/-- A command envelope with every optional field absent. -/
def CommandData.empty : CommandData :=
  { message := none, reply_to := none, is_typing := none,
    message_ids := none, message_id := none, content := none,
    emoji := none, action := none }

/-- One inbound WebSocket frame: either text that `json.loads` rejects, or
a parsed object with its `type` field and the rest of the envelope. -/
inductive Inbound
  | malformed
  | parsed (msg_type : Option String) (d : CommandData)
deriving DecidableEq, Repr

/-- Embeds Python `str.strip()`: the string with leading and trailing
whitespace removed (structurally, over the character list). -/
def pyStrip (s : String) : String :=
  String.mk (((s.toList.dropWhile Char.isWhitespace).reverse.dropWhile
    Char.isWhitespace).reverse)

/-- A database write performed by one of the consumer's
`database_sync_to_async` operations.  Writes that read the database
(status creation, bulk updates) are interpreted against the state at the
moment the write runs, as in the source. -/
inductive DbWrite
  | putMessage (m : MessageRec)
  | createStatuses (conversation_id author_id message_id : Nat) (now : Time)
  | bulkMarkRead (user_id : Nat) (ids : List Nat) (now : Time)
  | touchLastRead (user_id conversation_id : Nat) (now : Time)
  | saveMessage (m : MessageRec)
  | putReaction (message_id : Option Nat) (user_id : Nat) (emoji : Option String)
  | delReaction (message_id : Option Nat) (user_id : Nat) (emoji : Option String)
  | upsertTyping (conversation_id user_id : Nat) (now : Time)
  | delTyping (conversation_id user_id : Nat)
deriving DecidableEq, Repr

/-- One effect of a consumer handler, in program order: a database write, a
`group_send` broadcast, or a `self.send` reply to the session's own
socket. -/
inductive Step
  | write (op : DbWrite)
  | groupSend (e : GroupEvent)
  | selfSend (o : OutFrame)
deriving DecidableEq, Repr

namespace ChatConsumer

/-- Embeds `ChatConsumer.create_message_statuses` (consumers.py): for every
membership of the conversation with `left_at` null, excluding the session's
own user (the author), build one `MessageStatus` row with status `sent`;
the rows are then `bulk_create`d. -/
def create_message_statuses (memberships : List UserConversationRec)
    (conversation_id author_id message_id : Nat) (now : Time) :
    List MessageStatusRec :=
  ((memberships.filter (fun uc =>
      uc.conversation_id == conversation_id && uc.left_at == none
        && uc.user_id != author_id)).map
    (fun uc =>
      { message_id := message_id, user_id := uc.user_id, status := .sent,
        sent_at := now, delivered_at := none, read_at := none }))

/-- Row-level effect of the bulk `UPDATE` in
`ChatConsumer.mark_messages_as_read` (consumers.py): a `MessageStatus` row
whose `message_id` is in `ids` and whose user is the session's user gets
`status='read'`, `read_at=now` — unconditionally, whatever its current
status; any other row is untouched. -/
def mark_read_row (user_id : Nat) (ids : List Nat) (now : Time)
    (s : MessageStatusRec) : MessageStatusRec :=
  if ids.contains s.message_id && s.user_id == user_id then
    { s with status := .read, read_at := some now }
  else
    s

/-- The full table after the bulk `UPDATE` of `mark_messages_as_read`:
every matching row rewritten by `mark_read_row`, every other row kept. -/
def mark_messages_as_read (statuses : List MessageStatusRec)
    (user_id : Nat) (ids : List Nat) (now : Time) : List MessageStatusRec :=
  statuses.map (mark_read_row user_id ids now)

end ChatConsumer

/-- Interpret one database write against the current state. -/
def applyWrite (w : World) : DbWrite → World
  | .putMessage m =>
      { w with messages := w.messages ++ [m],
               next_message_id := w.next_message_id + 1 }
  | .createStatuses cid aid mid now =>
      { w with statuses := w.statuses ++
          ChatConsumer.create_message_statuses w.memberships cid aid mid now }
  | .bulkMarkRead uid ids now =>
      { w with statuses := ChatConsumer.mark_messages_as_read w.statuses uid ids now }
  | .touchLastRead uid cid now =>
      { w with memberships := w.memberships.map (fun uc =>
          if uc.user_id == uid && uc.conversation_id == cid then
            { uc with last_read_at := some now }
          else uc) }
  | .saveMessage m =>
      { w with messages := w.messages.map (fun x => if x.id == m.id then m else x) }
  | .putReaction mid uid emo =>
      match mid, emo with
      | some mid, some emo =>
          if w.reactions.any (fun r =>
              r.message_id == mid && r.user_id == uid && r.emoji == emo) then
            w
          else
            { w with reactions := w.reactions ++
                [{ message_id := mid, user_id := uid, emoji := emo }] }
      | _, _ => w
  | .delReaction mid uid emo =>
      { w with reactions := w.reactions.filter (fun r =>
          !(some r.message_id == mid && r.user_id == uid && some r.emoji == emo)) }
  | .upsertTyping cid uid now =>
      if w.typing.any (fun t => t.conversation_id == cid && t.user_id == uid) then
        { w with typing := w.typing.map (fun t =>
            if t.conversation_id == cid && t.user_id == uid then
              { t with started_at := now }
            else t) }
      else
        { w with typing := w.typing ++
            [{ conversation_id := cid, user_id := uid, started_at := now }] }
  | .delTyping cid uid =>
      { w with typing := w.typing.filter (fun t =>
          !(t.conversation_id == cid && t.user_id == uid)) }

/-- Run a handler's steps in order: thread the database state through the
writes and collect the broadcast events and local replies in emission
order. -/
def runSteps (w : World) : List Step → World × List GroupEvent × List OutFrame
  | [] => (w, [], [])
  | .write op :: rest => runSteps (applyWrite w op) rest
  | .groupSend e :: rest =>
      let r := runSteps w rest
      (r.1, e :: r.2.1, r.2.2)
  | .selfSend o :: rest =>
      let r := runSteps w rest
      (r.1, r.2.1, o :: r.2.2)

/-- Walk the steps up to the first `group_send` and return that event
together with the database state visible at the moment it is emitted. -/
def worldAtFirstGroupSend (w : World) :
    List Step → Option (GroupEvent × World)
  | [] => none
  | .write op :: rest => worldAtFirstGroupSend (applyWrite w op) rest
  | .groupSend e :: _ => some (e, w)
  | .selfSend _ :: rest => worldAtFirstGroupSend w rest


namespace ChatConsumer

/-- Embeds `ChatConsumer.message_to_dict` (consumers.py).  The author's
display name is looked up in the user table; a null author serializes as
"System". -/
def message_to_dict (users : List UserRec) (m : MessageRec) : MsgDict :=
  { id := m.id,
    author_id := m.author_id,
    author_username :=
      match m.author_id with
      | none => "System"
      | some uid => (((users.find? (fun u => u.id == uid)).map
          (fun u => u.username)).getD "System"),
    content := m.content,
    type := m.type,
    created_at := m.created_at,
    is_edited := m.is_edited,
    edited_at := m.edited_at,
    reply_to_id := m.reply_to_id }

/-- Embeds `ChatConsumer.create_message` (consumers.py): persists a new
`Message` row authored by the session's user; the id is the table's next
autoincrement value. -/
def create_message (w : World) (sess : Session) (content : String)
    (reply_to_id : Option Nat) (now : Time) : MessageRec :=
  { id := w.next_message_id,
    conversation_id := sess.conversation_id,
    author_id := some sess.user_id,
    content := content,
    type := "text",
    created_at := now,
    is_edited := false,
    edited_at := none,
    is_deleted := false,
    deleted_at := none,
    reply_to_id := reply_to_id }

/-- Embeds `ChatConsumer.edit_message` (consumers.py): fetch the message
with the given id whose author is the session's user, in the session's
conversation, not deleted; if found, apply `Message.edit` and return the
edited row, else return `None`.  (The `save` this triggers is the
`saveMessage` step the handler runs.) -/
def edit_message (w : World) (sess : Session) (message_id : Option Nat)
    (new_content : String) (now : Time) : Option MessageRec :=
  match w.messages.find? (fun m =>
      some m.id == message_id && m.author_id == some sess.user_id
        && m.conversation_id == sess.conversation_id && m.is_deleted == false) with
  | none => none
  | some m => some (Message.edit m new_content now)

/-- Embeds the fetch of `ChatConsumer.delete_message` (consumers.py): the
message with the given id, authored by the session's user, in the session's
conversation — with no `is_deleted` filter.  The Python function returns
`True` exactly when this is `some`, after running `soft_delete` (the
`saveMessage` step the handler runs). -/
def delete_message (w : World) (sess : Session) (message_id : Option Nat) :
    Option MessageRec :=
  w.messages.find? (fun m =>
    some m.id == message_id && m.author_id == some sess.user_id
      && m.conversation_id == sess.conversation_id)

/-- Embeds `ChatConsumer.handle_chat_message` (consumers.py), effects in
program order: blank content is a silent no-op; otherwise the message row
is created, the `chat_message` event is broadcast to the group, and only
then are the delivery-status rows created. -/
def handle_chat_message (w : World) (sess : Session) (d : CommandData)
    (now : Time) : List Step :=
  let content := d.message.getD ""
  if pyStrip content = "" then
    []
  else
    let m := create_message w sess content d.reply_to now
    [.write (.putMessage m),
     .groupSend (.chatMessage (message_to_dict w.users m)),
     .write (.createStatuses sess.conversation_id sess.user_id m.id now)]

/-- Embeds `ChatConsumer.handle_typing` (consumers.py): upsert or delete
the typing-indicator row, then broadcast the typing event (including back
into the group containing the sender). -/
def handle_typing (sess : Session) (d : CommandData) (now : Time) :
    List Step :=
  let is_typing := d.is_typing.getD false
  (if is_typing then
    [Step.write (.upsertTyping sess.conversation_id sess.user_id now)]
   else
    [Step.write (.delTyping sess.conversation_id sess.user_id)]) ++
  [.groupSend (.typingIndicatorEv sess.user_id sess.username is_typing)]

/-- Embeds `ChatConsumer.handle_read_receipt` (consumers.py): the bulk
status update and the `last_read_at` touch (the two queries of
`mark_messages_as_read`), then the broadcast. -/
def handle_read_receipt (sess : Session) (d : CommandData) (now : Time) :
    List Step :=
  let ids := d.message_ids.getD []
  [.write (.bulkMarkRead sess.user_id ids now),
   .write (.touchLastRead sess.user_id sess.conversation_id now),
   .groupSend (.readReceiptEv sess.user_id ids)]

/-- Embeds `ChatConsumer.handle_edit_message` (consumers.py): blank new
content is a silent no-op; otherwise run `edit_message` and, only when it
returned a message, save it and broadcast `message_edited`. -/
def handle_edit_message (w : World) (sess : Session) (d : CommandData)
    (now : Time) : List Step :=
  let new_content := d.content.getD ""
  if pyStrip new_content = "" then
    []
  else
    match edit_message w sess d.message_id new_content now with
    | none => []
    | some m =>
        [.write (.saveMessage m),
         .groupSend (.messageEdited (message_to_dict w.users m))]

/-- Embeds `ChatConsumer.handle_delete_message` (consumers.py): run
`delete_message` and, only on success, save the soft-deleted row and
broadcast `message_deleted`. -/
def handle_delete_message (w : World) (sess : Session) (d : CommandData)
    (now : Time) : List Step :=
  match delete_message w sess d.message_id with
  | none => []
  | some m =>
      [.write (.saveMessage (Message.soft_delete m now)),
       .groupSend (.messageDeleted d.message_id sess.user_id)]

/-- Embeds `ChatConsumer.handle_reaction` (consumers.py): add or remove the
reaction row (action defaults to add), then broadcast. -/
def handle_reaction (sess : Session) (d : CommandData) : List Step :=
  let action := d.action.getD "add"
  (if action = "add" then
    [Step.write (.putReaction d.message_id sess.user_id d.emoji)]
   else
    [Step.write (.delReaction d.message_id sess.user_id d.emoji)]) ++
  [.groupSend (.messageReaction d.message_id sess.user_id d.emoji action)]

/-- Embeds `ChatConsumer.receive` (consumers.py): text that fails JSON
parsing gets a local error frame; a parsed envelope is dispatched on its
`type` field to the matching handler, and an unrecognized `type` falls
through every branch — silently, with no reply and no broadcast. -/
def receive (w : World) (sess : Session) (now : Time) : Inbound → List Step
  | .malformed => [.selfSend (.errorFrame "Invalid JSON")]
  | .parsed msg_type d =>
      if msg_type = some "chat_message" then handle_chat_message w sess d now
      else if msg_type = some "typing" then handle_typing sess d now
      else if msg_type = some "read_receipt" then handle_read_receipt sess d now
      else if msg_type = some "edit_message" then handle_edit_message w sess d now
      else if msg_type = some "delete_message" then handle_delete_message w sess d now
      else if msg_type = some "reaction" then handle_reaction sess d
      else []

/-- Embeds the per-session group-event handlers of `ChatConsumer`
(`chat_message`, `typing_indicator`, `read_receipt`, `message_edited`,
`message_deleted`, `message_reaction`, `user_join`, `user_leave`): what one
subscribed session writes to its own socket when the event reaches it.
`typing_indicator`, `user_join` and `user_leave` drop the event when its
`user_id` is the session's own user; every other handler sends
unconditionally. -/
def deliver (ev : GroupEvent) (sess : Session) : Option OutFrame :=
  match ev with
  | .chatMessage md => some (.chatMessageFrame md)
  | .typingIndicatorEv uid uname t =>
      if uid ≠ sess.user_id then some (.typingFrame uid uname t) else none
  | .readReceiptEv uid ids => some (.readReceiptFrame uid ids)
  | .messageEdited md => some (.messageEditedFrame md)
  | .messageDeleted mid uid => some (.messageDeletedFrame mid uid)
  | .messageReaction mid uid emo act => some (.reactionFrame mid uid emo act)
  | .userJoin uid uname =>
      if uid ≠ sess.user_id then some (.userJoinFrame uid uname) else none
  | .userLeave uid uname =>
      if uid ≠ sess.user_id then some (.userLeaveFrame uid uname) else none

end ChatConsumer

/-- An operation that can touch one `MessageStatus` row over its lifetime:
the two model methods, and the consumer's bulk read update (restricted to
its effect on this row). -/
inductive StatusOp
  | markDelivered (now : Time)
  | markRead (now : Time)
  | bulkMarkRead (user_id : Nat) (ids : List Nat) (now : Time)
deriving DecidableEq, Repr

/-- Apply one status operation to one row. -/
def applyStatusOp (s : MessageStatusRec) : StatusOp → MessageStatusRec
  | .markDelivered now => MessageStatus.mark_delivered s now
  | .markRead now => MessageStatus.mark_read s now
  | .bulkMarkRead uid ids now => ChatConsumer.mark_read_row uid ids now s

/-- Apply a sequence of status operations to one row, in order. -/
def applyStatusOps (s : MessageStatusRec) : List StatusOp → MessageStatusRec
  | [] => s
  | op :: ops => applyStatusOps (applyStatusOp s op) ops

/-- Recognise the `chat_message` broadcast event. -/
def isChatMessageEv : GroupEvent → Bool
  | .chatMessage _ => true
  | _ => false

/-- Concrete scenario used by several closed statements: a direct
conversation (id 7) whose two active members are users 1 (alice, the
session's user) and 2 (bob). -/
def demoWorld : World :=
  { users := [{ id := 1, username := "alice" }, { id := 2, username := "bob" }],
    messages := [],
    statuses := [],
    memberships :=
      [{ user_id := 1, conversation_id := 7, last_read_at := none, left_at := none },
       { user_id := 2, conversation_id := 7, last_read_at := none, left_at := none }],
    typing := [],
    reactions := [],
    next_message_id := 10 }

/-- The session of user 1 (alice) on conversation 7. -/
def demoSession : Session :=
  { user_id := 1, username := "alice", conversation_id := 7 }

/-- A delivery-status row that is already `read`, with `read_at = 5`. -/
def readRow5 : MessageStatusRec :=
  { message_id := 3, user_id := 2, status := .read, sent_at := 0,
    delivered_at := none, read_at := some 5 }

/-- A live message (id 3) authored by user 1 in conversation 7. -/
def oldMessage : MessageRec :=
  { id := 3, conversation_id := 7, author_id := some 1, content := "old",
    type := "text", created_at := 1, is_edited := false, edited_at := none,
    is_deleted := false, deleted_at := none, reply_to_id := none }

/-- An already soft-deleted message (id 4) authored by user 1 in
conversation 7, with `deleted_at = 2`. -/
def deletedMessage : MessageRec :=
  { oldMessage with id := 4, is_deleted := true, deleted_at := some 2 }

/-- The demo world with both messages present. -/
def editWorld : World :=
  { demoWorld with messages := [oldMessage, deletedMessage] }

/-- The freshly created `sent` status row for message 10 and user 2. -/
def sentRow : MessageStatusRec :=
  { message_id := 10, user_id := 2, status := .sent, sent_at := 4,
    delivered_at := none, read_at := none }

/-- What `oldMessage` becomes when edited to "new" at time 9. -/
def editedMessage : MessageRec :=
  { oldMessage with content := "new", is_edited := true, edited_at := some 9 }

/-- An `edit_message` command for message 3 with new content "new". -/
def editData : CommandData :=
  { CommandData.empty with message_id := some 3, content := some "new" }

/-- A `delete_message` command for the already-deleted message 4. -/
def deleteData : CommandData :=
  { CommandData.empty with message_id := some 4 }

/-- A `chat_message` command with content "hi". -/
def chatData : CommandData :=
  { CommandData.empty with message := some "hi" }

namespace OnlineStatus

/-- The presence invariant of the spec: `is_online` mirrors
`connection_count > 0`. -/
def Inv (s : OnlineStatusRec) : Prop :=
  s.is_online = true ↔ 0 < s.connection_count

theorem go_offline_connection_count (s : OnlineStatusRec) (now : Time) :
    (go_offline s now).connection_count = s.connection_count - 1 := by
  unfold go_offline
  by_cases h : s.connection_count - 1 = 0 <;> simp [h]

theorem inv_applyCall {s : OnlineStatusRec} (c : Call) (h : Inv s) :
    Inv (applyCall s c) := by
  cases c with
  | goOnline now => simp [applyCall, go_online, Inv]
  | goOffline now =>
      by_cases hc : s.connection_count - 1 = 0
      · simp [applyCall, go_offline, Inv, hc]
      · simp only [applyCall, go_offline, Inv, hc, if_false]
        exact ⟨fun _ => Nat.pos_of_ne_zero hc, fun _ => h.mpr (by omega)⟩

theorem inv_applyCalls {s : OnlineStatusRec} (cs : List Call) (h : Inv s) :
    Inv (applyCalls s cs) := by
  induction cs generalizing s with
  | nil => exact h
  | cons c cs ih => exact ih (inv_applyCall c h)

theorem applyCalls_connection_count (cs : List Call) (s : OnlineStatusRec)
    (h : ∀ p ∈ cs.inits, offlineCount p ≤ s.connection_count + onlineCount p) :
    (applyCalls s cs).connection_count + offlineCount cs
      = s.connection_count + onlineCount cs := by
  induction cs generalizing s with
  | nil => simp [applyCalls, onlineCount, offlineCount]
  | cons c cs ih =>
      cases c with
      | goOnline now =>
          have hrec := ih (go_online s now) (fun p hp => by
            have hp' : (Call.goOnline now :: p) ∈ (Call.goOnline now :: cs).inits := by
              rw [List.mem_inits] at hp ⊢
              obtain ⟨t, ht⟩ := hp
              exact ⟨t, by simp [ht]⟩
            have := h _ hp'
            simp only [offlineCount, onlineCount, go_online] at this ⊢
            omega)
          simp only [applyCalls, applyCall, offlineCount, onlineCount]
          have hcnt : (go_online s now).connection_count = s.connection_count + 1 := rfl
          omega
      | goOffline now =>
          have hone : (1:Nat) ≤ s.connection_count := by
            have hp' : ([Call.goOffline now]) ∈ (Call.goOffline now :: cs).inits := by
              rw [List.mem_inits]
              exact ⟨cs, rfl⟩
            have := h _ hp'
            simpa [offlineCount, onlineCount] using this
          have hrec := ih (go_offline s now) (fun p hp => by
            have hp' : (Call.goOffline now :: p) ∈ (Call.goOffline now :: cs).inits := by
              rw [List.mem_inits] at hp ⊢
              obtain ⟨t, ht⟩ := hp
              exact ⟨t, by simp [ht]⟩
            have := h _ hp'
            have hcnt := go_offline_connection_count s now
            simp only [offlineCount, onlineCount] at this ⊢
            omega)
          simp only [applyCalls, applyCall, offlineCount, onlineCount]
          have hcnt := go_offline_connection_count s now
          omega

end OnlineStatus

/-- C2 (counterexample): the claim computes the clamp once, at the end of
the sequence, but the code clamps at every step.  For the sequence
`[GoOffline, GoOnline]` starting from a fresh record, the code leaves
`connection_count = 1`, while (#GoOnline − #GoOffline) clamped at 0 is
`1 - 1 = 0`. -/
theorem c2_clamp_counterexample :
    (OnlineStatus.applyCalls (OnlineStatus.initial 1 0)
        [.goOffline 1, .goOnline 2]).connection_count = 1
    ∧ OnlineStatus.onlineCount [.goOffline 1, .goOnline 2]
        - OnlineStatus.offlineCount
            ([.goOffline 1, .goOnline 2] : List OnlineStatus.Call) = 0
    ∧ (1 : Nat) ≠ 0 := by
  refine ⟨rfl, rfl, by decide⟩

/-- C2 (amended): starting from a fresh `PresenceRecord`
(`connection_count = 0`, `is_online = false`), after every call of any
`GoOnline`/`GoOffline` sequence, `is_online` is true iff
`connection_count > 0`; and for every sequence in which no prefix has more
`GoOffline` than `GoOnline` calls, the final `connection_count` equals
(#GoOnline − #GoOffline). -/
theorem c2_presence_sequence (uid : Nat) (t0 : Time)
    (cs : List OnlineStatus.Call) :
    (∀ p ∈ cs.inits,
        OnlineStatus.Inv (OnlineStatus.applyCalls (OnlineStatus.initial uid t0) p))
    ∧ ((∀ p ∈ cs.inits,
          OnlineStatus.offlineCount p ≤ OnlineStatus.onlineCount p) →
        (OnlineStatus.applyCalls (OnlineStatus.initial uid t0) cs).connection_count
          = OnlineStatus.onlineCount cs - OnlineStatus.offlineCount cs) := by
  constructor
  · intro p _
    exact OnlineStatus.inv_applyCalls p (by simp [OnlineStatus.initial, OnlineStatus.Inv])
  · intro hbal
    have h0 : (OnlineStatus.initial uid t0).connection_count = 0 := rfl
    have h := OnlineStatus.applyCalls_connection_count cs
      (OnlineStatus.initial uid t0)
      (fun p hp => by
        have hb := hbal p hp
        omega)
    omega

/-- C2 (witness): the amended theorem applied to the concrete sequence
`[GoOnline, GoOnline, GoOffline]`: the invariant holds after every call and
the final count is `2 - 1 = 1`. -/
theorem c2_presence_sequence_witness :
    (∀ p ∈ ([.goOnline 1, .goOnline 2, .goOffline 3] :
          List OnlineStatus.Call).inits,
        OnlineStatus.Inv (OnlineStatus.applyCalls (OnlineStatus.initial 1 0) p))
    ∧ (OnlineStatus.applyCalls (OnlineStatus.initial 1 0)
        [.goOnline 1, .goOnline 2, .goOffline 3]).connection_count = 1 := by
  have h := c2_presence_sequence 1 0 [.goOnline 1, .goOnline 2, .goOffline 3]
  refine ⟨h.1, ?_⟩
  rw [h.2 (by decide)]
  decide

/-- C3: over any run of `mark_delivered`, `mark_read` and the bulk
read-receipt update on one `MessageStatus` row, the status rank along the
`sent → delivered → read` chain never decreases (so the observed status
sequence is a subsequence of `sent, delivered, read`); moreover
`mark_delivered` changes the status only when it is currently `sent`, and
leaves an already-`read` row entirely unchanged. -/
theorem c3_status_never_regresses (s : MessageStatusRec)
    (ops : List StatusOp) (now : Time) :
    DStatus.rank s.status ≤ DStatus.rank (applyStatusOps s ops).status
    ∧ (s.status ≠ .sent →
        (MessageStatus.mark_delivered s now).status = s.status)
    ∧ (s.status = .read → MessageStatus.mark_delivered s now = s) := by
  refine ⟨?_, ?_, ?_⟩
  · induction ops generalizing s with
    | nil => exact le_refl _
    | cons op ops ih =>
        refine le_trans ?_ (ih (applyStatusOp s op))
        cases op with
        | markDelivered now' =>
            simp only [applyStatusOp, MessageStatus.mark_delivered]
            by_cases hs : s.status = .sent
            · simp [hs, DStatus.rank]
            · simp [hs]
        | markRead now' =>
            simp only [applyStatusOp, MessageStatus.mark_read]
            by_cases hs : s.status = .read
            · simp [hs]
            · cases h : s.status <;> simp [h, DStatus.rank]
        | bulkMarkRead uid ids now' =>
            simp only [applyStatusOp, ChatConsumer.mark_read_row]
            by_cases hs : (ids.contains s.message_id && s.user_id == uid) = true
            · simp only [if_pos hs]
              cases s.status <;> simp [DStatus.rank]
            · simp only [if_neg hs]
              exact le_refl _
  · intro hs
    simp [MessageStatus.mark_delivered, hs]
  · intro hs
    simp [MessageStatus.mark_delivered, hs]

/-- C3 (witness): the theorem applied to a concrete already-`read` row and
a concrete run: the rank does not decrease, and `mark_delivered` leaves
the row as it is. -/
theorem c3_status_never_regresses_witness :
    DStatus.rank readRow5.status
      ≤ DStatus.rank (applyStatusOps readRow5 [.markDelivered 6, .markRead 7]).status
    ∧ (MessageStatus.mark_delivered readRow5 6).status = readRow5.status
    ∧ MessageStatus.mark_delivered readRow5 6 = readRow5 := by
  have h := c3_status_never_regresses readRow5 [.markDelivered 6, .markRead 7] 6
  exact ⟨h.1, h.2.1 (by decide), h.2.2 rfl⟩

/-- C8: the claim (and the spec) take `IsExpired` to test the full elapsed
time `now - started_at` against the timeout, but the code tests only the
`seconds` component of the timedelta (`elapsed mod 86400`).  At an elapsed
time of one day plus two seconds (86402 s), which exceeds the 5-second
reference timeout, `is_expired` returns `false`. -/
theorem c8_is_expired_day_wrap :
    TypingIndicator.is_expired 86402 TypingIndicator.default_timeout = false
    ∧ 86402 > TypingIndicator.default_timeout := by
  refine ⟨rfl, by decide⟩

/-- C4 (counterexample): the claim says a row that is already `read` is
left unchanged with the same `read_at`, but the bulk `UPDATE` of the
read-receipt path rewrites `read_at` unconditionally: on a row read at
time 5, a `read_receipt` at time 7 leaves the status `read` but moves
`read_at` to 7. -/
theorem c4_read_at_overwritten :
    readRow5.status = .read ∧ readRow5.read_at = some 5
    ∧ (ChatConsumer.mark_messages_as_read [readRow5] 2 [3] 7).map
        (fun s => s.status) = [DStatus.read]
    ∧ (ChatConsumer.mark_messages_as_read [readRow5] 2 [3] 7).map
        (fun s => s.read_at) = [some 7]
    ∧ some (7 : Time) ≠ some (5 : Time) := by
  refine ⟨rfl, rfl, rfl, rfl, by decide⟩

/-- C4 (amended): a `read_receipt`/`MarkRead(user, message_ids)` call
rewrites every existing status row of that user whose message id is in the
list to `status = read` with `read_at = now` — a row that is already
`read` keeps status `read` (no downgrade) but its `read_at` is overwritten
with the new now — while every other row is left unchanged and ids with no
matching row are silently skipped (pointwise rewriting: no row is created
or removed). -/
theorem c4_bulk_mark_read (sts : List MessageStatusRec) (uid : Nat)
    (ids : List Nat) (now : Time) :
    (ChatConsumer.mark_messages_as_read sts uid ids now).length = sts.length
    ∧ List.Forall₂ (fun s t =>
        (s.message_id ∈ ids ∧ s.user_id = uid →
            t = { s with status := .read, read_at := some now })
        ∧ (¬(s.message_id ∈ ids ∧ s.user_id = uid) → t = s))
        sts (ChatConsumer.mark_messages_as_read sts uid ids now) := by
  constructor
  · simp [ChatConsumer.mark_messages_as_read]
  · induction sts with
    | nil => simp [ChatConsumer.mark_messages_as_read]
    | cons s sts ih =>
        refine List.Forall₂.cons ⟨?_, ?_⟩ ih
        · intro h
          simp [ChatConsumer.mark_read_row, h.1, h.2]
        · intro h
          simp only [ChatConsumer.mark_read_row]
          exact if_neg (fun hb => by
            rw [Bool.and_eq_true] at hb
            exact h ⟨List.mem_of_elem_eq_true hb.1, eq_of_beq hb.2⟩)

/-- C5: handling a non-blank `chat_message` creates, per user, as many
`sent` status rows as that user has active non-author memberships of the
conversation (so exactly one per such membership, none for the author and
none for members who left); and every created row is `sent` for this
message with a non-author user. -/
theorem c5_one_status_per_recipient (ms : List UserConversationRec)
    (cid aid mid : Nat) (now : Time) (u : Nat) :
    (ChatConsumer.create_message_statuses ms cid aid mid now).countP
        (fun r => r.user_id == u)
      = ms.countP (fun uc => (uc.user_id == u)
          && (uc.conversation_id == cid && uc.left_at == none
                && uc.user_id != aid))
    ∧ ∀ r ∈ ChatConsumer.create_message_statuses ms cid aid mid now,
        r.status = .sent ∧ r.message_id = mid ∧ r.user_id ≠ aid := by
  constructor
  · simp only [ChatConsumer.create_message_statuses]
    rw [List.countP_map, List.countP_filter]
    rfl
  · intro r hr
    simp only [ChatConsumer.create_message_statuses, List.mem_map,
      List.mem_filter] at hr
    obtain ⟨uc, ⟨_, hp⟩, rfl⟩ := hr
    simp only [Bool.and_eq_true, bne_iff_ne, beq_iff_eq] at hp
    exact ⟨rfl, rfl, hp.2⟩

/-- C5 (witness): in the demo conversation (members 1 and 2, author 1),
the created rows contain exactly one row for user 2, and that row is
`sent` for message 10 with a non-author user. -/
theorem c5_one_status_per_recipient_witness :
    (ChatConsumer.create_message_statuses demoWorld.memberships 7 1 10 4).countP
        (fun r => r.user_id == 2) = 1
    ∧ sentRow.status = .sent ∧ sentRow.message_id = 10
    ∧ sentRow.user_id ≠ 1 := by
  have h := c5_one_status_per_recipient demoWorld.memberships 7 1 10 4 2
  refine ⟨?_, h.2 sentRow (by decide)⟩
  rw [h.1]
  decide

/-- C6: the `typing_indicator`, `user_join` and `user_leave` handlers drop
the event for any session whose user is the event's originating user — in
particular for the originating session itself — while every other event
kind, including the author's own `chat_message`, is delivered back to the
sender's connection as part of the broadcast. -/
theorem c6_self_echo_suppression (sess : Session) (uid : Nat)
    (uname : String) (b : Bool) (md : MsgDict) (ids : List Nat)
    (omid : Option Nat) (emo : Option String) (act : String) :
    (uid = sess.user_id →
        ChatConsumer.deliver (.typingIndicatorEv uid uname b) sess = none
        ∧ ChatConsumer.deliver (.userJoin uid uname) sess = none
        ∧ ChatConsumer.deliver (.userLeave uid uname) sess = none)
    ∧ ChatConsumer.deliver (.chatMessage md) sess = some (.chatMessageFrame md)
    ∧ ChatConsumer.deliver (.readReceiptEv uid ids) sess
        = some (.readReceiptFrame uid ids)
    ∧ ChatConsumer.deliver (.messageEdited md) sess
        = some (.messageEditedFrame md)
    ∧ ChatConsumer.deliver (.messageDeleted omid uid) sess
        = some (.messageDeletedFrame omid uid)
    ∧ ChatConsumer.deliver (.messageReaction omid uid emo act) sess
        = some (.reactionFrame omid uid emo act) := by
  refine ⟨fun h => ?_, rfl, rfl, rfl, rfl, rfl⟩
  subst h
  simp [ChatConsumer.deliver]

/-- C6 (witness): for the session of user 1, events originated by user 1
of the three suppressed kinds are dropped, and a `chat_message` broadcast
is delivered back to the author's own session. -/
theorem c6_self_echo_suppression_witness :
    ChatConsumer.deliver (.typingIndicatorEv 1 "alice" true) demoSession = none
    ∧ ChatConsumer.deliver (.userJoin 1 "alice") demoSession = none
    ∧ ChatConsumer.deliver (.userLeave 1 "alice") demoSession = none
    ∧ ChatConsumer.deliver
        (.chatMessage (ChatConsumer.message_to_dict demoWorld.users oldMessage))
        demoSession
      = some (.chatMessageFrame
          (ChatConsumer.message_to_dict demoWorld.users oldMessage)) := by
  have h := c6_self_echo_suppression demoSession 1 "alice" true
    (ChatConsumer.message_to_dict demoWorld.users oldMessage) [] none none "add"
  exact ⟨(h.1 rfl).1, (h.1 rfl).2.1, (h.1 rfl).2.2, h.2.1⟩

/-- Success of `edit_message` is exactly success of its underlying fetch. -/
theorem edit_message_isSome (w : World) (sess : Session)
    (message_id : Option Nat) (new_content : String) (now : Time) :
    (ChatConsumer.edit_message w sess message_id new_content now).isSome
      = (w.messages.find? (fun m =>
          some m.id == message_id && m.author_id == some sess.user_id
            && m.conversation_id == sess.conversation_id
            && m.is_deleted == false)).isSome := by
  unfold ChatConsumer.edit_message
  cases hf : w.messages.find? (fun m =>
      some m.id == message_id && m.author_id == some sess.user_id
        && m.conversation_id == sess.conversation_id
        && m.is_deleted == false) <;> simp [hf]

/-- C7: with non-blank new content, `edit_message` succeeds exactly when a
non-deleted message with the given id exists in the session's conversation
with the calling user as its author (so any other caller — including a
moderator touching another author's message — fails); on failure the
handler leaves the database unchanged and broadcasts nothing; on success
the edited row has the new content, `is_edited = true`, `edited_at = now`,
exactly one `message_edited` event is broadcast, nothing is sent locally,
and every message row other than the edited one is unchanged. -/
theorem c7_edit_message_author_only (w : World) (sess : Session)
    (d : CommandData) (now : Time)
    (hc : ¬(pyStrip (d.content.getD "") = "")) :
    ((ChatConsumer.edit_message w sess d.message_id (d.content.getD "") now).isSome
        ↔ ∃ m0 ∈ w.messages, some m0.id = d.message_id
            ∧ m0.author_id = some sess.user_id
            ∧ m0.conversation_id = sess.conversation_id
            ∧ m0.is_deleted = false)
    ∧ (ChatConsumer.edit_message w sess d.message_id (d.content.getD "") now = none →
        runSteps w (ChatConsumer.handle_edit_message w sess d now) = (w, [], []))
    ∧ (∀ m, ChatConsumer.edit_message w sess d.message_id (d.content.getD "") now
          = some m →
        m.content = d.content.getD "" ∧ m.is_edited = true ∧ m.edited_at = some now
        ∧ (runSteps w (ChatConsumer.handle_edit_message w sess d now)).2.1
            = [.messageEdited (ChatConsumer.message_to_dict w.users m)]
        ∧ (runSteps w (ChatConsumer.handle_edit_message w sess d now)).2.2 = []
        ∧ ∀ x ∈ (runSteps w (ChatConsumer.handle_edit_message w sess d now)).1.messages,
            (some x.id = d.message_id → x = m)
            ∧ (some x.id ≠ d.message_id → x ∈ w.messages)) := by
  refine ⟨?_, ?_, ?_⟩
  · rw [edit_message_isSome, List.find?_isSome]
    simp only [Bool.and_eq_true, beq_iff_eq]
    constructor
    · rintro ⟨x, hx, ⟨⟨h1, h2⟩, h3⟩, h4⟩
      exact ⟨x, hx, h1, h2, h3, h4⟩
    · rintro ⟨x, hx, h1, h2, h3, h4⟩
      exact ⟨x, hx, ⟨⟨h1, h2⟩, h3⟩, h4⟩
  · intro h0
    simp only [ChatConsumer.handle_edit_message, if_neg hc, h0]
    rfl
  · intro m hm
    have hm' := hm
    unfold ChatConsumer.edit_message at hm'
    cases hf : w.messages.find? (fun m =>
        some m.id == d.message_id && m.author_id == some sess.user_id
          && m.conversation_id == sess.conversation_id
          && m.is_deleted == false) with
    | none =>
        rw [hf] at hm'
        exact absurd hm' (by simp)
    | some m0 =>
        rw [hf] at hm'
        simp only [Option.some.injEq] at hm'
        subst hm'
        have hq := List.find?_some hf
        simp only [Bool.and_eq_true, beq_iff_eq] at hq
        obtain ⟨⟨⟨hqid, hqauth⟩, hqconv⟩, hqdel⟩ := hq
        have hsteps : ChatConsumer.handle_edit_message w sess d now
            = [.write (.saveMessage (Message.edit m0 (d.content.getD "") now)),
               .groupSend (.messageEdited (ChatConsumer.message_to_dict w.users
                  (Message.edit m0 (d.content.getD "") now)))] := by
          simp only [ChatConsumer.handle_edit_message, if_neg hc, hm]
        refine ⟨rfl, rfl, rfl, ?_, ?_, ?_⟩
        · rw [hsteps]
          rfl
        · rw [hsteps]
          rfl
        · intro x hx
          have hworld : (runSteps w (ChatConsumer.handle_edit_message w sess d now)).1
              = applyWrite w
                  (.saveMessage (Message.edit m0 (d.content.getD "") now)) := by
            rw [hsteps]
            rfl
          rw [hworld] at hx
          simp only [applyWrite, List.mem_map] at hx
          obtain ⟨x0, hx0, rfl⟩ := hx
          by_cases hb : (x0.id == (Message.edit m0 (d.content.getD "") now).id) = true
          · rw [if_pos hb]
            exact ⟨fun _ => rfl, fun hne => absurd hqid hne⟩
          · rw [if_neg hb]
            refine ⟨fun hxid => ?_, fun _ => hx0⟩
            exact absurd (beq_iff_eq.mpr (Option.some.inj (hxid.trans hqid.symm))) hb

/-- C7 (witness): in a world holding message 3 (author 1) and message 4,
the author's session edits message 3 to "new" at time 9: the edit
succeeds, the row carries the new content and edit marks, and one
`message_edited` event is broadcast. -/
theorem c7_edit_message_author_only_witness :
    (ChatConsumer.edit_message editWorld demoSession editData.message_id
        (editData.content.getD "") 9).isSome
    ∧ editedMessage.content = "new" ∧ editedMessage.is_edited = true
    ∧ editedMessage.edited_at = some 9
    ∧ (runSteps editWorld
          (ChatConsumer.handle_edit_message editWorld demoSession editData 9)).2.1
        = [.messageEdited (ChatConsumer.message_to_dict editWorld.users editedMessage)] := by
  have h := c7_edit_message_author_only editWorld demoSession editData 9 (by decide)
  have hsome : ChatConsumer.edit_message editWorld demoSession editData.message_id
      (editData.content.getD "") 9 = some editedMessage := by decide
  have h3 := h.2.2 editedMessage hsome
  exact ⟨by rw [hsome]; rfl, h3.1, h3.2.1, h3.2.2.1, h3.2.2.2.1⟩

/-- C9 (counterexample): the claim names the local error
`{"error": "Invalid payload"}` and says an unrecognized command type emits
a local error event, but the code's error text is `Invalid JSON` and an
unrecognized type falls through `receive` with no reply at all. -/
theorem c9_error_reply_counterexample :
    ChatConsumer.receive demoWorld demoSession 3 .malformed
        = [.selfSend (.errorFrame "Invalid JSON")]
    ∧ "Invalid JSON" ≠ "Invalid payload"
    ∧ ChatConsumer.receive demoWorld demoSession 3
        (.parsed (some "presence_ping") CommandData.empty) = [] := by
  refine ⟨rfl, by decide, rfl⟩

/-- C9 (amended): a frame that is not parseable produces the local error
event `{"error": "Invalid JSON"}` sent only to the originating connection;
a parseable command with an unrecognized type is silently ignored — no
local event, no database write; and in neither case is any event broadcast
to the conversation's group. -/
theorem c9_unknown_command_silent (w : World) (sess : Session) (now : Time)
    (t : Option String) (d : CommandData)
    (h : t ∉ ([some "chat_message", some "typing", some "read_receipt",
        some "edit_message", some "delete_message", some "reaction"] :
          List (Option String))) :
    runSteps w (ChatConsumer.receive w sess now .malformed)
        = (w, [], [.errorFrame "Invalid JSON"])
    ∧ runSteps w (ChatConsumer.receive w sess now (.parsed t d))
        = (w, [], []) := by
  constructor
  · rfl
  · simp only [List.mem_cons, List.not_mem_nil, or_false, not_or] at h
    obtain ⟨h1, h2, h3, h4, h5, h6⟩ := h
    simp only [ChatConsumer.receive, if_neg h1, if_neg h2, if_neg h3,
      if_neg h4, if_neg h5, if_neg h6]
    rfl

/-- C9 (witness): the amended theorem applied to the unknown command type
"frobnicate" in the demo world. -/
theorem c9_unknown_command_silent_witness :
    runSteps demoWorld (ChatConsumer.receive demoWorld demoSession 3 .malformed)
        = (demoWorld, [], [.errorFrame "Invalid JSON"])
    ∧ runSteps demoWorld (ChatConsumer.receive demoWorld demoSession 3
        (.parsed (some "frobnicate") CommandData.empty))
        = (demoWorld, [], []) :=
  c9_unknown_command_silent demoWorld demoSession 3 (some "frobnicate")
    CommandData.empty (by decide)

/-- C10: soft-deleting an already soft-deleted message is not rejected:
when a message with the command's id, authored by the session's user, in
the session's conversation, is already deleted, `delete_message` still
succeeds (returns True), one further `message_deleted` event is broadcast,
and the row keeps `is_deleted = true` with `deleted_at` overwritten by the
new time. -/
theorem c10_redelete_succeeds (w : World) (sess : Session) (d : CommandData)
    (now : Time) (m0 : MessageRec) (hm : m0 ∈ w.messages)
    (hid : some m0.id = d.message_id)
    (hauth : m0.author_id = some sess.user_id)
    (hconv : m0.conversation_id = sess.conversation_id)
    (hdel : m0.is_deleted = true) :
    (ChatConsumer.delete_message w sess d.message_id).isSome = true
    ∧ (runSteps w (ChatConsumer.handle_delete_message w sess d now)).2.1
        = [.messageDeleted d.message_id sess.user_id]
    ∧ ∀ x ∈ (runSteps w (ChatConsumer.handle_delete_message w sess d now)).1.messages,
        some x.id = d.message_id → x.is_deleted = true ∧ x.deleted_at = some now := by
  have hp : (fun m => some m.id == d.message_id
      && m.author_id == some sess.user_id
      && m.conversation_id == sess.conversation_id) m0 = true := by
    simp [hid, hauth, hconv]
  have hsome : (ChatConsumer.delete_message w sess d.message_id).isSome = true := by
    unfold ChatConsumer.delete_message
    exact List.find?_isSome.mpr ⟨m0, hm, hp⟩
  refine ⟨hsome, ?_, ?_⟩
  all_goals {
    unfold ChatConsumer.delete_message at hsome
    cases hf : w.messages.find? (fun m =>
        some m.id == d.message_id && m.author_id == some sess.user_id
          && m.conversation_id == sess.conversation_id) with
    | none => rw [hf] at hsome; exact absurd hsome (by simp)
    | some mf =>
        have hq := List.find?_some hf
        simp only [Bool.and_eq_true, beq_iff_eq] at hq
        obtain ⟨⟨hfid, _⟩, _⟩ := hq
        have hsteps : ChatConsumer.handle_delete_message w sess d now
            = [.write (.saveMessage (Message.soft_delete mf now)),
               .groupSend (.messageDeleted d.message_id sess.user_id)] := by
          simp only [ChatConsumer.handle_delete_message,
            ChatConsumer.delete_message, hf]
        first
        | (rw [hsteps]; rfl)
        | (intro x hx hxid
           have hworld : (runSteps w (ChatConsumer.handle_delete_message w sess d now)).1
               = applyWrite w (.saveMessage (Message.soft_delete mf now)) := by
             rw [hsteps]
             rfl
           rw [hworld] at hx
           simp only [applyWrite, List.mem_map] at hx
           obtain ⟨x0, _, rfl⟩ := hx
           by_cases hb : (x0.id == (Message.soft_delete mf now).id) = true
           · rw [if_pos hb] at hxid ⊢
             exact ⟨rfl, rfl⟩
           · rw [if_neg hb] at hxid
             exact absurd (beq_iff_eq.mpr (Option.some.inj (hxid.trans hfid.symm))) hb)
  }

/-- C10 (witness): user 1 re-deletes the already-deleted message 4 at time
9: the delete succeeds, a `message_deleted` event is broadcast, and the
row ends with `is_deleted = true`, `deleted_at = 9`. -/
theorem c10_redelete_succeeds_witness :
    (ChatConsumer.delete_message editWorld demoSession deleteData.message_id).isSome
        = true
    ∧ (runSteps editWorld
          (ChatConsumer.handle_delete_message editWorld demoSession deleteData 9)).2.1
        = [.messageDeleted deleteData.message_id demoSession.user_id]
    ∧ (Message.soft_delete deletedMessage 9).is_deleted = true
    ∧ (Message.soft_delete deletedMessage 9).deleted_at = some 9 := by
  have h := c10_redelete_succeeds editWorld demoSession deleteData 9
    deletedMessage (by decide) rfl rfl rfl rfl
  refine ⟨h.1, h.2.1, ?_⟩
  exact h.2.2 (Message.soft_delete deletedMessage 9) (by decide) rfl

/-- C1: the claim requires the delivery-status rows to exist before, or
atomically with, the `chat_message` broadcast, but `handle_chat_message`
broadcasts first and only then creates the status rows.  In the demo
conversation (author 1, active recipient 2), handling
`{"type": "chat_message", "message": "hi"}` emits its first group event —
the `chat_message` broadcast — while the status table is still empty,
although an eligible recipient exists; the recipient's `sent` row appears
only once all steps have run. -/
theorem c1_broadcast_precedes_status_rows :
    ((worldAtFirstGroupSend demoWorld
        (ChatConsumer.handle_chat_message demoWorld demoSession chatData 4)).map
      (fun p => (isChatMessageEv p.1, p.2.statuses))) = some (true, [])
    ∧ ChatConsumer.create_message_statuses demoWorld.memberships 7 1 10 4 ≠ []
    ∧ ((runSteps demoWorld
          (ChatConsumer.handle_chat_message demoWorld demoSession chatData 4)).1.statuses).map
        (fun s => (s.message_id, s.user_id, s.status)) = [(10, 2, DStatus.sent)] := by
  refine ⟨rfl, by decide, rfl⟩
